import Mathlib

/-!
Verification of the tick-scheduling and state-projection layer of
`src/crates/wv-wasm/www/main.js` (war-village game engine, browser frontend).

The embedding models wall-clock durations as exact rationals, JS strings as
`String`, the simulation engine (an external WASM object) as an abstract
stepping function `tick_packed : E → ℕ → E × S`, and the per-tick input
sampling (`readInputs`, which reads the ambient keyboard table at the moment
of each call) as a stream `inputs : ℕ → ℕ` indexed by the number of samples
taken so far, so that distinct stream indices are distinct sampling moments.
-/

namespace WarVillage

/-- Tick period in milliseconds: `const TICK_MS = 1000 / 60` (main.js line 270). -/
def TICK_MS : ℚ := 1000 / 60

theorem TICK_MS_pos : (0 : ℚ) < TICK_MS := by norm_num [TICK_MS]

/-- The module-level mutable state threaded through the frame loop
(main.js lines 271-273): the time accumulator, the engine handle `game`,
and the retained latest snapshot. -/
structure FrameState (E S : Type) where
  accumulator : ℚ
  game : E
  latestSnap : S

/-- The catch-up while loop of main.js lines 282-286:
`while (accumulator >= TICK_MS) { const bits = readInputs(); latestSnap =
game.tick_packed(bits); accumulator -= TICK_MS; }`.
Returns the final frame state together with the list of input samples passed
to the engine, in order; `k` is the index of the next fresh input sample. -/
def tickWhile {E S : Type} (tick_packed : E → ℕ → E × S) (inputs : ℕ → ℕ)
    (k : ℕ) (st : FrameState E S) : FrameState E S × List ℕ :=
  if h : TICK_MS ≤ st.accumulator then
    ((tickWhile tick_packed inputs (k + 1)
        ⟨st.accumulator - TICK_MS,
         (tick_packed st.game (inputs k)).1,
         (tick_packed st.game (inputs k)).2⟩).1,
     inputs k ::
       (tickWhile tick_packed inputs (k + 1)
         ⟨st.accumulator - TICK_MS,
          (tick_packed st.game (inputs k)).1,
          (tick_packed st.game (inputs k)).2⟩).2)
  else
    (st, [])
termination_by (⌊st.accumulator / TICK_MS⌋).toNat
decreasing_by
  all_goals
    have hT : (0 : ℚ) < TICK_MS := TICK_MS_pos
    have hsub : (st.accumulator - TICK_MS) / TICK_MS = st.accumulator / TICK_MS - 1 := by
      rw [sub_div, div_self (ne_of_gt hT)]
    have h1 : (1 : ℚ) ≤ st.accumulator / TICK_MS := by
      rw [le_div_iff₀ hT, one_mul]; exact h
    have h2 : (1 : ℤ) ≤ ⌊st.accumulator / TICK_MS⌋ := by
      apply Int.le_floor.mpr; exact_mod_cast h1
    rw [hsub, Int.floor_sub_one]
    omega

/-- Iterating the engine for a given number of ticks starting at input-sample
index `k`, returning the final engine handle and latest snapshot. -/
def runEngine {E S : Type} (tick_packed : E → ℕ → E × S) (inputs : ℕ → ℕ) :
    ℕ → ℕ → E → S → E × S
  | _, 0, e, s => (e, s)
  | k, n + 1, e, s =>
      runEngine tick_packed inputs (k + 1) n
        (tick_packed e (inputs k)).1 (tick_packed e (inputs k)).2

/-- Closed form of the catch-up loop: it runs exactly `⌊accumulator / TICK_MS⌋`
ticks, subtracting one tick period each time, and passes the consecutive fresh
input samples `inputs k, inputs (k+1), …` to the engine in order. -/
theorem tickWhile_spec {E S : Type} (tick_packed : E → ℕ → E × S) (inputs : ℕ → ℕ) :
    ∀ (n k : ℕ) (st : FrameState E S),
      (⌊st.accumulator / TICK_MS⌋).toNat = n →
      tickWhile tick_packed inputs k st =
        (⟨st.accumulator - (n : ℚ) * TICK_MS,
          (runEngine tick_packed inputs k n st.game st.latestSnap).1,
          (runEngine tick_packed inputs k n st.game st.latestSnap).2⟩,
         (List.range n).map fun i => inputs (k + i)) := by
  intro n
  induction n with
  | zero =>
      intro k st hn
      have hlt : st.accumulator < TICK_MS := by
        by_contra hge
        push_neg at hge
        have h1 : (1 : ℤ) ≤ ⌊st.accumulator / TICK_MS⌋ := by
          apply Int.le_floor.mpr
          push_cast
          rw [le_div_iff₀ TICK_MS_pos, one_mul]
          exact hge
        omega
      rw [tickWhile, dif_neg (not_le.mpr hlt)]
      simp [runEngine]
  | succ n ih =>
      intro k st hn
      have hge : TICK_MS ≤ st.accumulator := by
        by_contra hlt
        push_neg at hlt
        have h1 : ⌊st.accumulator / TICK_MS⌋ < 1 := by
          apply Int.floor_lt.mpr
          push_cast
          rw [div_lt_one TICK_MS_pos]
          exact hlt
        omega
      have hsub : (st.accumulator - TICK_MS) / TICK_MS = st.accumulator / TICK_MS - 1 := by
        rw [sub_div, div_self (ne_of_gt TICK_MS_pos)]
      have hfloor : (⌊(st.accumulator - TICK_MS) / TICK_MS⌋).toNat = n := by
        rw [hsub, Int.floor_sub_one]
        omega
      rw [tickWhile, dif_pos hge,
        ih (k + 1) ⟨st.accumulator - TICK_MS,
          (tick_packed st.game (inputs k)).1,
          (tick_packed st.game (inputs k)).2⟩ hfloor]
      refine Prod.ext ?_ ?_
      · show (⟨st.accumulator - TICK_MS - (n : ℚ) * TICK_MS, _, _⟩ : FrameState E S) = _
        have hacc : st.accumulator - TICK_MS - (n : ℚ) * TICK_MS
            = st.accumulator - ((n + 1 : ℕ) : ℚ) * TICK_MS := by
          push_cast
          ring
        rw [hacc]
        rfl
      · show inputs k :: (List.range n).map (fun i => inputs (k + 1 + i))
            = (List.range (n + 1)).map fun i => inputs (k + i)
        rw [List.range_succ_eq_map, List.map_cons, List.map_map]
        refine congrArg₂ _ (by rw [Nat.add_zero]) ?_
        refine List.map_congr_left fun i _ => ?_
        simp only [Function.comp_apply]
        congr 1
        omega

/-- One invocation of the frame loop's tick-scheduling step
(main.js lines 278-286): clamp the elapsed time to 100 ms
(`const dt = Math.min(now - lastTime, 100)`), add it to the accumulator,
then run the catch-up while loop. -/
def loopStep {E S : Type} (tick_packed : E → ℕ → E × S) (inputs : ℕ → ℕ)
    (k : ℕ) (elapsed : ℚ) (st : FrameState E S) : FrameState E S × List ℕ :=
  tickWhile tick_packed inputs k
    ⟨st.accumulator + min elapsed 100, st.game, st.latestSnap⟩

/-- Closed form of one tick-scheduling step, instantiating `tickWhile_spec`. -/
theorem loopStep_spec {E S : Type} (tick_packed : E → ℕ → E × S) (inputs : ℕ → ℕ)
    (k : ℕ) (elapsed : ℚ) (st : FrameState E S) :
    loopStep tick_packed inputs k elapsed st =
      (⟨st.accumulator + min elapsed 100
          - ((⌊(st.accumulator + min elapsed 100) / TICK_MS⌋).toNat : ℚ) * TICK_MS,
        (runEngine tick_packed inputs k
          (⌊(st.accumulator + min elapsed 100) / TICK_MS⌋).toNat st.game st.latestSnap).1,
        (runEngine tick_packed inputs k
          (⌊(st.accumulator + min elapsed 100) / TICK_MS⌋).toNat st.game st.latestSnap).2⟩,
       (List.range (⌊(st.accumulator + min elapsed 100) / TICK_MS⌋).toNat).map
         fun i => inputs (k + i)) :=
  tickWhile_spec tick_packed inputs _ k
    ⟨st.accumulator + min elapsed 100, st.game, st.latestSnap⟩ rfl

/-- A sequence of frame-loop invocations (one per animation callback), each
given its elapsed wall-clock time; threads the frame state and the fresh-input
index through, collecting all inputs handed to the engine. -/
def runFrames {E S : Type} (tick_packed : E → ℕ → E × S) (inputs : ℕ → ℕ) :
    List ℚ → ℕ → FrameState E S → FrameState E S × List ℕ
  | [], _, st => (st, [])
  | e :: es, k, st =>
      ((runFrames tick_packed inputs es
          (k + (loopStep tick_packed inputs k e st).2.length)
          (loopStep tick_packed inputs k e st).1).1,
       (loopStep tick_packed inputs k e st).2 ++
         (runFrames tick_packed inputs es
           (k + (loopStep tick_packed inputs k e st).2.length)
           (loopStep tick_packed inputs k e st).1).2)

/-- After one scheduling step on a nonnegative accumulator the accumulator is
the remainder of the post-clamp total modulo one tick period: nonnegative,
below `TICK_MS`, and short of the total by tick-count times `TICK_MS`. -/
theorem loopStep_accumulator {E S : Type} (tick_packed : E → ℕ → E × S)
    (inputs : ℕ → ℕ) (k : ℕ) (elapsed : ℚ) (st : FrameState E S)
    (h0 : 0 ≤ st.accumulator) (he : 0 ≤ elapsed) :
    (loopStep tick_packed inputs k elapsed st).1.accumulator
        + TICK_MS * (((loopStep tick_packed inputs k elapsed st).2.length : ℕ) : ℚ)
      = st.accumulator + min elapsed 100
    ∧ 0 ≤ (loopStep tick_packed inputs k elapsed st).1.accumulator
    ∧ (loopStep tick_packed inputs k elapsed st).1.accumulator < TICK_MS := by
  have ha : 0 ≤ st.accumulator + min elapsed 100 := by
    have : 0 ≤ min elapsed 100 := le_min he (by norm_num)
    linarith
  set a := st.accumulator + min elapsed 100 with hadef
  have hfl : ((⌊a / TICK_MS⌋ : ℤ) : ℚ) ≤ a / TICK_MS := Int.floor_le _
  have hfu : a / TICK_MS < ((⌊a / TICK_MS⌋ : ℤ) : ℚ) + 1 := Int.lt_floor_add_one _
  have hdiv : a / TICK_MS * TICK_MS = a := div_mul_cancel₀ a (ne_of_gt TICK_MS_pos)
  have hcast : (((⌊a / TICK_MS⌋).toNat : ℕ) : ℚ) = ((⌊a / TICK_MS⌋ : ℤ) : ℚ) := by
    have : 0 ≤ ⌊a / TICK_MS⌋ := Int.floor_nonneg.mpr (div_nonneg ha TICK_MS_pos.le)
    exact_mod_cast congrArg (fun z : ℤ => (z : ℚ)) (Int.toNat_of_nonneg this)
  have hlow : ((⌊a / TICK_MS⌋ : ℤ) : ℚ) * TICK_MS ≤ a := by
    calc ((⌊a / TICK_MS⌋ : ℤ) : ℚ) * TICK_MS
        ≤ a / TICK_MS * TICK_MS := by
          exact mul_le_mul_of_nonneg_right hfl TICK_MS_pos.le
      _ = a := hdiv
  have hhigh : a < ((⌊a / TICK_MS⌋ : ℤ) : ℚ) * TICK_MS + TICK_MS := by
    calc a = a / TICK_MS * TICK_MS := hdiv.symm
      _ < (((⌊a / TICK_MS⌋ : ℤ) : ℚ) + 1) * TICK_MS := by
          exact mul_lt_mul_of_pos_right hfu TICK_MS_pos
      _ = ((⌊a / TICK_MS⌋ : ℤ) : ℚ) * TICK_MS + TICK_MS := by ring
  rw [loopStep_spec]
  simp only [List.length_map, List.length_range, ← hadef]
  rw [hcast]
  refine ⟨by ring, by linarith, by linarith⟩

/-- Accumulator invariant along any sequence of frames with nonnegative
elapsed times: the final accumulator is nonnegative; it stays below one tick
period (provided it started below it or at least one frame ran); and the
engine-tick count balances the clamped elapsed time exactly. -/
theorem runFrames_inv {E S : Type} (tick_packed : E → ℕ → E × S) (inputs : ℕ → ℕ) :
    ∀ (es : List ℚ) (k : ℕ) (st : FrameState E S),
      0 ≤ st.accumulator → (∀ x ∈ es, 0 ≤ x) →
      ((runFrames tick_packed inputs es k st).1.accumulator
          + TICK_MS * (((runFrames tick_packed inputs es k st).2.length : ℕ) : ℚ)
        = st.accumulator + (es.map fun x => min x 100).sum)
      ∧ 0 ≤ (runFrames tick_packed inputs es k st).1.accumulator
      ∧ (st.accumulator < TICK_MS ∨ es ≠ [] →
          (runFrames tick_packed inputs es k st).1.accumulator < TICK_MS) := by
  intro es
  induction es with
  | nil =>
      intro k st h0 _
      refine ⟨by simp [runFrames], by simpa [runFrames] using h0, ?_⟩
      rintro (h | h)
      · simpa [runFrames] using h
      · simp at h
  | cons e es ih =>
      intro k st h0 hnn
      have he : 0 ≤ e := hnn e (List.mem_cons_self e es)
      obtain ⟨hbal, hpos, hlt⟩ :=
        loopStep_accumulator tick_packed inputs k e st h0 he
      obtain ⟨ihbal, ihpos, ihlt⟩ :=
        ih (k + (loopStep tick_packed inputs k e st).2.length)
          (loopStep tick_packed inputs k e st).1 hpos
          (fun x hx => hnn x (List.mem_cons_of_mem e hx))
      refine ⟨?_, ?_, ?_⟩
      · show (runFrames tick_packed inputs es _ _).1.accumulator
            + TICK_MS * _ = _
        simp only [runFrames, List.length_append]
        push_cast
        rw [List.map_cons, List.sum_cons]
        have := ihbal
        push_cast at this
        linarith
      · simpa only [runFrames] using ihpos
      · intro _
        simp only [runFrames]
        exact ihlt (Or.inl hlt)

/-- C1: per tick-scheduling step the engine is advanced exactly once per full
tick period contained in the accumulator after adding the clamped elapsed
time; a nonnegative elapsed-time sequence summing to exactly one tick period
yields exactly one engine tick overall; elapsed time 0 on an in-range
accumulator runs zero ticks and leaves the frame state, in particular the
retained latest snapshot, unchanged; and each tick consumes its own fresh
input sample `inputs (k + i)`, never reusing one across ticks. -/
theorem tickScheduler_advance_correct {E S : Type}
    (tick_packed : E → ℕ → E × S) (inputs : ℕ → ℕ) :
    (∀ (k : ℕ) (elapsed : ℚ) (st : FrameState E S),
        ((loopStep tick_packed inputs k elapsed st).2).length
          = (⌊(st.accumulator + min elapsed 100) / TICK_MS⌋).toNat)
  ∧ (∀ (es : List ℚ) (k : ℕ) (st : FrameState E S),
        (∀ x ∈ es, 0 ≤ x) → es.sum = TICK_MS → st.accumulator = 0 →
        ((runFrames tick_packed inputs es k st).2).length = 1)
  ∧ (∀ (k : ℕ) (st : FrameState E S),
        0 ≤ st.accumulator → st.accumulator < TICK_MS →
        loopStep tick_packed inputs k 0 st = (st, []))
  ∧ (∀ (k : ℕ) (elapsed : ℚ) (st : FrameState E S),
        (loopStep tick_packed inputs k elapsed st).2
          = (List.range ((loopStep tick_packed inputs k elapsed st).2).length).map
              fun i => inputs (k + i)) := by
  refine ⟨?_, ?_, ?_, ?_⟩
  · intro k elapsed st
    rw [loopStep_spec]
    simp
  · intro es k st hnn hsum hacc
    have hmap : (es.map fun x => min x 100) = es := by
      have h1 : ∀ x ∈ es, min x 100 = x := by
        intro x hx
        apply min_eq_left
        calc x ≤ es.sum := List.single_le_sum hnn x hx
          _ = TICK_MS := hsum
          _ ≤ 100 := by norm_num [TICK_MS]
      calc es.map (fun x => min x 100) = es.map id := List.map_congr_left h1
        _ = es := List.map_id es
    have hne : st.accumulator < TICK_MS ∨ es ≠ [] := by
      right
      intro h
      subst h
      norm_num [List.sum_nil, TICK_MS] at hsum
    obtain ⟨hbal, hpos, hlt⟩ :=
      runFrames_inv tick_packed inputs es k st (by rw [hacc]) hnn
    rw [hmap, hacc, hsum] at hbal
    have hlt' := hlt hne
    set L := ((runFrames tick_packed inputs es k st).2).length with hL
    have hub : (L : ℚ) ≤ 1 := by
      have h2 : TICK_MS * (L : ℚ) ≤ TICK_MS * 1 := by linarith
      exact le_of_mul_le_mul_left h2 TICK_MS_pos
    have hlb : (0 : ℚ) < (L : ℚ) := by
      have h2 : TICK_MS * 0 < TICK_MS * (L : ℚ) := by linarith
      exact lt_of_mul_lt_mul_left h2 TICK_MS_pos.le
    have hub' : L ≤ 1 := by exact_mod_cast hub
    have hlb' : 0 < L := by exact_mod_cast hlb
    omega
  · intro k st h0 hT
    have hmin : min (0 : ℚ) 100 = 0 := min_eq_left (by norm_num)
    have hfl : ⌊st.accumulator / TICK_MS⌋ = 0 := by
      refine Int.floor_eq_zero_iff.mpr ?_
      rw [Set.mem_Ico]
      exact ⟨div_nonneg h0 TICK_MS_pos.le, (div_lt_one TICK_MS_pos).mpr hT⟩
    rw [loopStep_spec]
    simp only [hmin, add_zero, hfl, Int.toNat_zero, Nat.cast_zero, zero_mul,
      sub_zero, runEngine, List.range_zero, List.map_nil]
  · intro k elapsed st
    rw [loopStep_spec]
    simp

/-- Concrete check of `tickScheduler_advance_correct`: a single frame whose
elapsed time is exactly one tick period, starting from a zero accumulator,
drives the engine exactly once. -/
theorem tickScheduler_advance_correct_witness :
    ((runFrames (fun (e b : ℕ) => (e + b, e + b)) (fun i => i) [TICK_MS] 0
        (⟨0, 0, 0⟩ : FrameState ℕ ℕ)).2).length = 1 :=
  (tickScheduler_advance_correct (fun (e b : ℕ) => (e + b, e + b)) (fun i => i)).2.1
    [TICK_MS] 0 (⟨0, 0, 0⟩ : FrameState ℕ ℕ)
    (by norm_num [TICK_MS]) (by simp) rfl

/-- C2: an elapsed time above 100 ms is clamped; the scheduling step behaves
exactly as if the elapsed time had been 100 ms (same ticks run, same
accumulator, same inputs consumed), discarding the excess. -/
theorem elapsed_clamp_discards_excess {E S : Type}
    (tick_packed : E → ℕ → E × S) (inputs : ℕ → ℕ) (k : ℕ) (elapsed : ℚ)
    (h : 100 < elapsed) (st : FrameState E S) :
    loopStep tick_packed inputs k elapsed st
      = loopStep tick_packed inputs k 100 st := by
  unfold loopStep
  rw [min_eq_right (le_of_lt h), min_self]

/-- Concrete check of `elapsed_clamp_discards_excess` at elapsed time 150 ms. -/
theorem elapsed_clamp_discards_excess_witness :
    loopStep (fun (e b : ℕ) => (e + b, e + b)) (fun i => i) 0 150
        (⟨0, 0, 0⟩ : FrameState ℕ ℕ)
      = loopStep (fun (e b : ℕ) => (e + b, e + b)) (fun i => i) 0 100
        (⟨0, 0, 0⟩ : FrameState ℕ ℕ) :=
  elapsed_clamp_discards_excess (fun (e b : ℕ) => (e + b, e + b)) (fun i => i) 0 150
    (by norm_num) (⟨0, 0, 0⟩ : FrameState ℕ ℕ)

/-- C10: starting from a zero accumulator, after every completed frame-loop
invocation the accumulator lies in `[0, TICK_MS)`; consequently no single
invocation from an in-range accumulator ever runs more than six engine ticks,
whatever the elapsed wall-clock time. -/
theorem accumulator_range_invariant {E S : Type}
    (tick_packed : E → ℕ → E × S) (inputs : ℕ → ℕ) :
    (∀ (es : List ℚ) (k : ℕ) (st : FrameState E S),
        (∀ x ∈ es, 0 ≤ x) → st.accumulator = 0 →
        0 ≤ (runFrames tick_packed inputs es k st).1.accumulator
        ∧ (runFrames tick_packed inputs es k st).1.accumulator < TICK_MS)
  ∧ (∀ (k : ℕ) (elapsed : ℚ) (st : FrameState E S),
        0 ≤ st.accumulator → st.accumulator < TICK_MS →
        ((loopStep tick_packed inputs k elapsed st).2).length ≤ 6) := by
  constructor
  · intro es k st hnn hacc
    obtain ⟨_, hpos, hlt⟩ :=
      runFrames_inv tick_packed inputs es k st (by rw [hacc]) hnn
    exact ⟨hpos, hlt (Or.inl (by rw [hacc]; exact TICK_MS_pos))⟩
  · intro k elapsed st h0 hT
    rw [loopStep_spec]
    simp only [List.length_map, List.length_range]
    have hmin : min elapsed 100 ≤ 100 := min_le_right _ _
    have ha : st.accumulator + min elapsed 100 < 7 * TICK_MS := by
      norm_num [TICK_MS] at hT ⊢
      linarith
    have hfl : ⌊(st.accumulator + min elapsed 100) / TICK_MS⌋ < 7 := by
      apply Int.floor_lt.mpr
      push_cast
      rw [div_lt_iff₀ TICK_MS_pos]
      linarith
    omega

/-- Concrete check of `accumulator_range_invariant`: two frames of 20 ms and
500 ms from a zero accumulator leave the accumulator inside `[0, TICK_MS)`. -/
theorem accumulator_range_invariant_witness :
    0 ≤ (runFrames (fun (e b : ℕ) => (e + b, e + b)) (fun i => i) [20, 500] 0
        (⟨0, 0, 0⟩ : FrameState ℕ ℕ)).1.accumulator
    ∧ (runFrames (fun (e b : ℕ) => (e + b, e + b)) (fun i => i) [20, 500] 0
        (⟨0, 0, 0⟩ : FrameState ℕ ℕ)).1.accumulator < TICK_MS :=
  (accumulator_range_invariant (fun (e b : ℕ) => (e + b, e + b)) (fun i => i)).1
    [20, 500] 0 (⟨0, 0, 0⟩ : FrameState ℕ ℕ) (by norm_num) rfl

/-- The input encoder `readInputs` (main.js lines 110-156): reads the ambient
keyboard table (`!!keys[...]` truthiness, modelled as a `String → Bool` map)
and packs the 18 bound keys into a bitfield, player 1 on bits 0-8 and player 2
on bits 9-17, each player in the order forward, backward, guard-left,
guard-right, light, heavy, special, block, dash. -/
def readInputs (keys : String → Bool) : ℕ :=
  (if keys "KeyD" then 1 <<< 0 else 0) |||
  (if keys "KeyA" then 1 <<< 1 else 0) |||
  (if keys "KeyW" then 1 <<< 2 else 0) |||
  (if keys "KeyS" then 1 <<< 3 else 0) |||
  (if keys "KeyJ" then 1 <<< 4 else 0) |||
  (if keys "KeyK" then 1 <<< 5 else 0) |||
  (if keys "KeyL" then 1 <<< 6 else 0) |||
  (if keys "ShiftLeft" then 1 <<< 7 else 0) |||
  (if keys "Space" then 1 <<< 8 else 0) |||
  (if keys "ArrowRight" then 1 <<< 9 else 0) |||
  (if keys "ArrowLeft" then 1 <<< 10 else 0) |||
  (if keys "ArrowUp" then 1 <<< 11 else 0) |||
  (if keys "ArrowDown" then 1 <<< 12 else 0) |||
  (if keys "Numpad1" then 1 <<< 13 else 0) |||
  (if keys "Numpad2" then 1 <<< 14 else 0) |||
  (if keys "Numpad3" then 1 <<< 15 else 0) |||
  (if keys "Numpad0" then 1 <<< 16 else 0) |||
  (if keys "NumpadEnter" then 1 <<< 17 else 0)

/-- The key-to-bit binding table of `readInputs`, per player in source order
forward, backward, guard-left, guard-right, light, heavy, special, block,
dash: player 1 (WASD + J/K/L/Shift/Space) on bits 0-8 and player 2
(arrows + numpad) on bits 9-17. -/
def keyBindings : List (String × ℕ) :=
  [("KeyD", 0), ("KeyA", 1), ("KeyW", 2), ("KeyS", 3), ("KeyJ", 4),
   ("KeyK", 5), ("KeyL", 6), ("ShiftLeft", 7), ("Space", 8),
   ("ArrowRight", 9), ("ArrowLeft", 10), ("ArrowUp", 11), ("ArrowDown", 12),
   ("Numpad1", 13), ("Numpad2", 14), ("Numpad3", 15), ("Numpad0", 16),
   ("NumpadEnter", 17)]

theorem testBit_two_pow_eq (n i : ℕ) : Nat.testBit (2 ^ n) i = decide (n = i) := by
  rcases eq_or_ne n i with rfl | h
  · simp [Nat.testBit_two_pow_self]
  · simp [Nat.testBit_two_pow_of_ne h, h]

theorem testBit_cond (c : Bool) (n i : ℕ) :
    (if c then 1 <<< n else 0).testBit i = (c && decide (n = i)) := by
  cases c <;> simp [Nat.one_shiftLeft, testBit_two_pow_eq]

/-- C3: the input encoder is deterministic in the raw key-state; the 18 bound
keys occupy exactly the 18 distinct bits 0-17 (player 1 at offsets 0-8,
player 2 at offsets 9-17, each in source order forward, backward, guard-left,
guard-right, light, heavy, special, block, dash), with every bit of the
encoding controlled by its own key alone; bits 18 and above are never set;
the no-keys-pressed state encodes to 0; and pressing only player 1's
light-attack key (KeyJ) encodes to exactly `1 <<< 4`. -/
theorem inputEncoder_correct :
    (∀ keys1 keys2 : String → Bool, (∀ s, keys1 s = keys2 s) →
        readInputs keys1 = readInputs keys2)
  ∧ keyBindings.map Prod.snd = List.range 18
  ∧ (∀ p ∈ keyBindings, ∀ keys : String → Bool,
        (readInputs keys).testBit p.2 = keys p.1)
  ∧ (∀ (keys : String → Bool) (b : ℕ), 18 ≤ b →
        (readInputs keys).testBit b = false)
  ∧ readInputs (fun _ => false) = 0
  ∧ readInputs (fun s => s == "KeyJ") = 1 <<< 4 := by
  refine ⟨?_, by decide, ?_, ?_, by decide, by decide⟩
  · intro keys1 keys2 h
    rw [funext h]
  · intro p hp keys
    fin_cases hp <;> (simp only [readInputs, Nat.testBit_lor, testBit_cond]; simp)
  · intro keys b hb
    apply Nat.testBit_eq_false_of_lt
    calc readInputs keys < 2 ^ 18 := by
          unfold readInputs
          repeat refine Nat.or_lt_two_pow ?_ ?_
          all_goals split <;> decide
      _ ≤ 2 ^ b := Nat.pow_le_pow_right (by norm_num) hb

/-- Concrete check of `inputEncoder_correct`: with only KeyJ held, bit 4 of
the encoding is set. -/
theorem inputEncoder_correct_witness :
    (readInputs fun s => s == "KeyJ").testBit 4 = true := by
  have h := inputEncoder_correct.2.2.1 ("KeyJ", 4) (by decide) fun s => s == "KeyJ"
  simpa using h

/-- The attack sub-object of a fighter view (`fighter.attack`), carrying the
sub-phase tag read by `updateFighterMesh`. -/
structure AttackView where
  phase : String
deriving DecidableEq

/-- A fighter's view inside a snapshot, with the fields read by `updateHUD`
and `updateFighterMesh` (main.js lines 177-267). -/
structure FighterView where
  fighter_id : String
  weapon_type : String
  health_pct : ℚ
  stamina_pct : ℚ
  round_wins : ℕ
  posX : ℚ
  posY : ℚ
  posZ : ℚ
  facing : String
  state : String
  attack : Option AttackView

/-- A snapshot as consumed by the presentation layer (`game.tick_packed` /
`game.get_snapshot` results). -/
structure Snapshot where
  phase : String
  current_round : ℕ
  round_timer : ℚ
  countdown_display : String
  winner : Option (Fin 2)
  last_hit_info : Option String
  fighters : Fin 2 → FighterView

/-- HUD hit-notification state (module variables `lastHitInfo`, `hitInfoTimer`
of main.js lines 174-175 plus the text and opacity of the DOM element they
drive). -/
structure HitState where
  lastHitInfo : Option String
  hitInfoTimer : ℕ
  text : String
  visible : Bool
deriving DecidableEq

/-- JS truthiness of `snap.last_hit_info` (main.js line 211): absent, null or
the empty string is falsy. -/
def truthyHit : Option String → Bool
  | none => false
  | some s => !(s == "")

/-- First hit-info block of `updateHUD` (main.js lines 211-216): on a truthy
description that differs from the retained one, retain it, reset the display
countdown to 120 and show the notification. -/
def hitTrigger (snapHit : Option String) (st : HitState) : HitState :=
  if truthyHit snapHit ∧ snapHit ≠ st.lastHitInfo then
    { lastHitInfo := snapHit, hitInfoTimer := 120,
      text := snapHit.getD st.text, visible := true }
  else st

/-- Second hit-info block of `updateHUD` (main.js lines 217-222): while the
countdown is positive, decrement it, and fade the notification out exactly
when it reaches zero. -/
def hitDecay (st : HitState) : HitState :=
  if 0 < st.hitInfoTimer then
    { st with
        hitInfoTimer := st.hitInfoTimer - 1,
        visible := if st.hitInfoTimer - 1 = 0 then false else st.visible }
  else st

/-- The hit-notification portion of one `updateHUD` call
(main.js lines 211-222): the trigger block followed by the decay block. -/
def updateHitInfo (snapHit : Option String) (st : HitState) : HitState :=
  hitDecay (hitTrigger snapHit st)

/-- C4: when the hit description changes to a new non-absent value, the
countdown is reset to 120 and the notification shown (trigger block); a call
whose description equals the retained one never resets; and along the run of
repeated identical presentations the countdown decrements by exactly one per
call (120 was set and decremented once already within the changing call,
hence `119 - n` after `n` repeats) with the notification turning invisible
exactly when the countdown reaches zero, at the 119th repeat. -/
theorem hitNotification_timer (s : String) (st0 : HitState)
    (hs : ¬ s = "") (h0 : ¬ st0.lastHitInfo = some s) :
    hitTrigger (some s) st0 = ⟨some s, 120, s, true⟩
  ∧ (∀ st : HitState, st.lastHitInfo = some s → hitTrigger (some s) st = st)
  ∧ (∀ n : ℕ,
      ((updateHitInfo (some s))^[n] (updateHitInfo (some s) st0)).lastHitInfo = some s
      ∧ ((updateHitInfo (some s))^[n] (updateHitInfo (some s) st0)).hitInfoTimer = 119 - n
      ∧ ((updateHitInfo (some s))^[n] (updateHitInfo (some s) st0)).visible
          = decide (n < 119)) := by
  have htrig : hitTrigger (some s) st0 = ⟨some s, 120, s, true⟩ := by
    unfold hitTrigger
    rw [if_pos ⟨by simp [truthyHit, hs], fun h => h0 h.symm⟩]
    rfl
  have hrep : ∀ st : HitState, st.lastHitInfo = some s → hitTrigger (some s) st = st := by
    intro st hst
    unfold hitTrigger
    rw [if_neg]
    intro hcon
    exact hcon.2 hst.symm
  have hst1 : updateHitInfo (some s) st0 = ⟨some s, 119, s, true⟩ := by
    rw [updateHitInfo, htrig]
    rfl
  have htraj : ∀ n : ℕ, (updateHitInfo (some s))^[n] (updateHitInfo (some s) st0)
      = ⟨some s, 119 - n, s, decide (n < 119)⟩ := by
    intro n
    induction n with
    | zero => simpa using hst1
    | succ n ih =>
        rw [Function.iterate_succ_apply', ih, updateHitInfo,
          hrep ⟨some s, 119 - n, s, decide (n < 119)⟩ rfl]
        unfold hitDecay
        rcases lt_trichotomy n 118 with h1 | h1 | h1
        · rw [if_pos (show 0 < (119 : ℕ) - n by omega)]
          simp only [HitState.mk.injEq]
          refine ⟨trivial, by omega, trivial, ?_⟩
          show (if (119 : ℕ) - n - 1 = 0 then false else decide (n < 119)) = _
          rw [if_neg (by omega), decide_eq_decide]
          omega
        · subst h1
          rw [if_pos (by norm_num)]
          simp only [HitState.mk.injEq]
          refine ⟨trivial, by norm_num, trivial, ?_⟩
          show (if (119 : ℕ) - 118 - 1 = 0 then false else decide (118 < 119)) = _
          norm_num
        · rw [if_neg (show ¬ 0 < (119 : ℕ) - n by omega)]
          simp only [HitState.mk.injEq]
          refine ⟨trivial, by omega, trivial, ?_⟩
          rw [decide_eq_decide]
          omega
  exact ⟨htrig, hrep, fun n => by rw [htraj n]; exact ⟨rfl, rfl, rfl⟩⟩

/-- Concrete check of `hitNotification_timer`: a fresh "POW" description
resets the countdown to 120 and shows the notification, and five repeats
after the changing call leave the countdown at 114. -/
theorem hitNotification_timer_witness :
    hitTrigger (some "POW") ⟨none, 0, "", false⟩ = ⟨some "POW", 120, "POW", true⟩
    ∧ ((updateHitInfo (some "POW"))^[5]
        (updateHitInfo (some "POW") ⟨none, 0, "", false⟩)).hitInfoTimer = 114 := by
  have h := hitNotification_timer "POW" ⟨none, 0, "", false⟩ (by decide) (by decide)
  exact ⟨h.1, by rw [(h.2.2 5).2.1]⟩

/-- The alarm gradient string of main.js lines 226 and 234. -/
def ALARM_GRADIENT : String := "linear-gradient(180deg, #f44, #822)"

/-- The warning gradient string of main.js lines 228 and 236. -/
def WARNING_GRADIENT : String := "linear-gradient(180deg, #fc4, #862)"

/-- Health-bar background styling of `updateHUD` (main.js lines 225-231,
duplicated verbatim for fighter 2 on lines 233-239, so the same function is
applied independently to each fighter's health fraction). -/
def healthBarBackground (health_pct : ℚ) : String :=
  if health_pct < 0.25 then ALARM_GRADIENT
  else if health_pct < 0.5 then WARNING_GRADIENT
  else ""

/-- C5: for each fighter independently, the styling is the alarm gradient
exactly below a quarter health, the warning gradient exactly on
`[1/4, 1/2)`, and the default styling exactly from half health up; health of
exactly 0.25 yields the warning, not the alarm, gradient, while 0.2499
yields the alarm gradient. -/
theorem healthBar_thresholds (h : ℚ) :
    (healthBarBackground h = ALARM_GRADIENT ↔ h < 1 / 4)
  ∧ (healthBarBackground h = WARNING_GRADIENT ↔ 1 / 4 ≤ h ∧ h < 1 / 2)
  ∧ (healthBarBackground h = "" ↔ 1 / 2 ≤ h)
  ∧ healthBarBackground (1 / 4) = WARNING_GRADIENT
  ∧ healthBarBackground (2499 / 10000) = ALARM_GRADIENT := by
  have hAW : ALARM_GRADIENT ≠ WARNING_GRADIENT := by decide
  have hA0 : ALARM_GRADIENT ≠ "" := by decide
  have hW0 : WARNING_GRADIENT ≠ "" := by decide
  refine ⟨?_, ?_, ?_, ?_, ?_⟩
  · unfold healthBarBackground
    split_ifs with h1 h2
    · simp only [eq_self_iff_true, true_iff]
      norm_num at h1 ⊢
      linarith
    · simp only [hAW.symm, false_iff]
      push_neg at h1 ⊢
      norm_num at h1 ⊢
      linarith
    · simp only [hA0.symm, false_iff]
      push_neg at h1 ⊢
      norm_num at h1 ⊢
      linarith
  · unfold healthBarBackground
    split_ifs with h1 h2
    · simp only [hAW, false_iff]
      norm_num at h1
      intro hc
      linarith [hc.1]
    · norm_num at h1 h2
      simp only [true_iff]
      exact ⟨by linarith, by linarith⟩
    · simp only [hW0.symm, false_iff]
      norm_num at h1 h2
      intro hc
      linarith [hc.2]
  · unfold healthBarBackground
    split_ifs with h1 h2
    · simp only [hA0, false_iff]
      norm_num at h1
      intro hc
      linarith
    · simp only [hW0, false_iff]
      norm_num at h2
      intro hc
      linarith
    · norm_num at h2
      simp only [true_iff]
      linarith
  · norm_num [healthBarBackground, hAW]
  · norm_num [healthBarBackground]

/-- The phase-overlay DOM element state: its text content and whether its
`display` style is "block" (`true`) or "none" (`false`). -/
structure PhaseOverlay where
  text : String
  display : Bool
deriving DecidableEq

/-- Phase-overlay block of `updateHUD` (main.js lines 194-208): Countdown
shows the snapshot's countdown string, RoundOver shows "ROUND OVER",
MatchOver shows the winner's fighter id (or "Draw" when `snap.winner` is
null) suffixed with " WINS!", and any other phase hides the overlay, leaving
the previously displayed text in place. -/
def phaseOverlay (snap : Snapshot) (prevText : String) : PhaseOverlay :=
  if snap.phase = "Countdown" then
    ⟨snap.countdown_display, true⟩
  else if snap.phase = "RoundOver" then
    ⟨"ROUND OVER", true⟩
  else if snap.phase = "MatchOver" then
    ⟨(match snap.winner with
      | some i => (snap.fighters i).fighter_id
      | none => "Draw") ++ " WINS!", true⟩
  else
    ⟨prevText, false⟩

/-- C6: the overlay outcome is governed by the snapshot's phase tag alone:
Countdown shows the countdown string, RoundOver shows the fixed round-over
text, MatchOver shows the winner's name (or the draw label when no winner
reference is present) suffixed with " WINS!", Fighting hides the overlay,
and the overlay is visible for exactly the three non-Fighting recognized
phases, so the outcomes are mutually exclusive. -/
theorem phaseOverlay_by_phase (snap : Snapshot) (prevText : String) :
    (snap.phase = "Countdown" →
        phaseOverlay snap prevText = ⟨snap.countdown_display, true⟩)
  ∧ (snap.phase = "RoundOver" →
        phaseOverlay snap prevText = ⟨"ROUND OVER", true⟩)
  ∧ (snap.phase = "MatchOver" → ∀ i : Fin 2, snap.winner = some i →
        phaseOverlay snap prevText
          = ⟨(snap.fighters i).fighter_id ++ " WINS!", true⟩)
  ∧ (snap.phase = "MatchOver" → snap.winner = none →
        phaseOverlay snap prevText = ⟨"Draw" ++ " WINS!", true⟩)
  ∧ (snap.phase = "Fighting" →
        phaseOverlay snap prevText = ⟨prevText, false⟩)
  ∧ ((phaseOverlay snap prevText).display = true ↔
        snap.phase ∈ (["Countdown", "RoundOver", "MatchOver"] : List String)) := by
  refine ⟨?_, ?_, ?_, ?_, ?_, ?_⟩
  · intro hp
    rw [phaseOverlay, if_pos hp]
  · intro hp
    rw [phaseOverlay, if_neg (by rw [hp]; decide), if_pos hp]
  · intro hp i hw
    rw [phaseOverlay, if_neg (by rw [hp]; decide), if_neg (by rw [hp]; decide),
      if_pos hp, hw]
  · intro hp hw
    rw [phaseOverlay, if_neg (by rw [hp]; decide), if_neg (by rw [hp]; decide),
      if_pos hp, hw]
  · intro hp
    rw [phaseOverlay, if_neg (by rw [hp]; decide), if_neg (by rw [hp]; decide),
      if_neg (by rw [hp]; decide)]
  · unfold phaseOverlay
    split_ifs with h1 h2 h3
    · simp [h1]
    · simp [h2]
    · simp [h3]
    · simp [h1, h2, h3]

/-- Concrete check of `phaseOverlay_by_phase` on a countdown snapshot and a
drawn match-over snapshot. -/
theorem phaseOverlay_by_phase_witness :
    phaseOverlay
        ⟨"Countdown", 1, 60, "3", none, none,
          fun _ => ⟨"Kael", "Sword", 1, 1, 0, 0, 0, 0, "Right", "Idle", none⟩⟩ ""
      = ⟨"3", true⟩
    ∧ phaseOverlay
        ⟨"MatchOver", 3, 0, "", none, none,
          fun _ => ⟨"Kael", "Sword", 1, 1, 0, 0, 0, 0, "Right", "Idle", none⟩⟩ ""
      = ⟨"Draw" ++ " WINS!", true⟩ :=
  ⟨(phaseOverlay_by_phase
      ⟨"Countdown", 1, 60, "3", none, none,
        fun _ => ⟨"Kael", "Sword", 1, 1, 0, 0, 0, 0, "Right", "Idle", none⟩⟩ "").1 rfl,
   (phaseOverlay_by_phase
      ⟨"MatchOver", 3, 0, "", none, none,
        fun _ => ⟨"Kael", "Sword", 1, 1, 0, 0, 0, 0, "Right", "Idle", none⟩⟩ "").2.2.2.1
     rfl rfl⟩

/-- The `STATE_COLORS` object literal of main.js lines 93-103, as an ordered
key-value table: `null` entries (Idle, Moving) are `none`, colour entries are
`some` of the hex value; note the key "Getting Up" is written with a space. -/
def STATE_COLORS_TABLE : List (String × Option ℕ) :=
  [("Idle", none), ("Moving", none),
   ("Attacking", some 0xffaa00), ("Blocking", some 0x00aaff),
   ("Dashing", some 0x88ffaa), ("HitStun", some 0xff0000),
   ("Airborne", some 0xffff44), ("Knockdown", some 0x884400),
   ("Getting Up", some 0x886644)]

/-- JS property lookup `STATE_COLORS[state]`: `some` of the stored value for
a present key (which may itself be null, i.e. `some none`), `none`
(undefined) for an absent key. -/
def STATE_COLORS (state : String) : Option (Option ℕ) :=
  (STATE_COLORS_TABLE.find? fun p => p.1 == state).map Prod.snd

/-- Body-colour selection of `updateFighterMesh` (main.js lines 249-252):
`stateColor != null ? stateColor : defaultColor`, where the loose `!= null`
rejects both a null table entry and an undefined lookup. -/
def bodyColor (state : String) (defaultColor : ℕ) : ℕ :=
  match STATE_COLORS state with
  | some (some c) => c
  | _ => defaultColor

/-- Truthiness-and-phase test `fighter.attack && fighter.attack.phase ===
"Active"` of main.js line 258. -/
def attackIsActive : Option AttackView → Bool
  | some a => a.phase == "Active"
  | none => false

/-- Squash-and-stretch body scale of `updateFighterMesh`
(main.js lines 254-266). -/
def bodyScale (state : String) (attack : Option AttackView) : ℚ × ℚ × ℚ :=
  if state = "Dashing" then (1.3, 0.8, 1)
  else if state = "Attacking" ∧ attackIsActive attack then (1.1, 1.05, 1.1)
  else if state = "HitStun" then (0.9, 1.1, 0.9)
  else if state = "Knockdown" then (1.2, 0.5, 1)
  else (1, 1, 1)

/-- The fighter-state tags the presentation layer recognizes: the keys of
`STATE_COLORS` (which include every tag the scale branches compare). -/
def recognizedStates : List String := STATE_COLORS_TABLE.map Prod.fst

/-- The phase tags the HUD layer recognizes. -/
def recognizedPhases : List String :=
  ["Countdown", "Fighting", "RoundOver", "MatchOver"]

/-- C7 counterexample: the scale applied to an Active-phase attack is not a
uniform expansion — no single factor fits all three axes, since the body is
scaled 1.1 horizontally and in depth but only 1.05 vertically. -/
theorem bodyScale_active_not_uniform :
    ¬ ∃ c : ℚ, bodyScale "Attacking" (some ⟨"Active"⟩) = (c, c, c) := by
  rintro ⟨c, hc⟩
  rw [show bodyScale "Attacking" (some ⟨"Active"⟩) = (1.1, 1.05, 1.1) from by
    rw [bodyScale, if_neg (by decide), if_pos ⟨rfl, by decide⟩]] at hc
  simp only [Prod.mk.injEq] at hc
  obtain ⟨h1, h2, _⟩ := hc
  rw [← h1] at h2
  norm_num at h2

/-- C7 (amended): the state-based scale mapping as implemented: Dashing
stretches forward and compresses vertically (1.3, 0.8, 1); an Active-phase
attack slightly expands the body on all three axes, by 1.1 horizontally and
in depth but 1.05 vertically (not one uniform factor); HitStun compresses
horizontally and stretches vertically (0.9, 1.1, 0.9); Knockdown strongly
compresses vertically (1.2, 0.5, 1); every other state, including Attacking
in Startup or Recovery phase, keeps unit scale. -/
theorem bodyScale_by_state (state : String) (attack : Option AttackView) :
    bodyScale "Dashing" attack = (1.3, 0.8, 1)
  ∧ (attackIsActive attack = true →
      bodyScale "Attacking" attack = (1.1, 1.05, 1.1))
  ∧ (attackIsActive attack = false →
      bodyScale "Attacking" attack = (1, 1, 1))
  ∧ bodyScale "HitStun" attack = (0.9, 1.1, 0.9)
  ∧ bodyScale "Knockdown" attack = (1.2, 0.5, 1)
  ∧ (state ≠ "Dashing" → state ≠ "Attacking" → state ≠ "HitStun" →
      state ≠ "Knockdown" → bodyScale state attack = (1, 1, 1)) := by
  refine ⟨?_, ?_, ?_, ?_, ?_, ?_⟩
  · rw [bodyScale, if_pos rfl]
  · intro ha
    rw [bodyScale, if_neg (by decide), if_pos ⟨rfl, ha⟩]
  · intro ha
    rw [bodyScale, if_neg (by decide), if_neg (by simp [ha]),
      if_neg (by decide), if_neg (by decide)]
  · rw [bodyScale, if_neg (by decide),
      if_neg (fun hc => absurd hc.1 (by decide)), if_pos rfl]
  · rw [bodyScale, if_neg (by decide),
      if_neg (fun hc => absurd hc.1 (by decide)), if_neg (by decide),
      if_pos rfl]
  · intro h1 h2 h3 h4
    rw [bodyScale, if_neg h1, if_neg (fun hc => h2 hc.1), if_neg h3, if_neg h4]

/-- Concrete check of `bodyScale_by_state`: an Active attack expands the
body, a Startup attack and Idle keep unit scale. -/
theorem bodyScale_by_state_witness :
    bodyScale "Attacking" (some ⟨"Active"⟩) = (1.1, 1.05, 1.1)
    ∧ bodyScale "Attacking" (some ⟨"Startup"⟩) = (1, 1, 1)
    ∧ bodyScale "Idle" none = (1, 1, 1) :=
  ⟨(bodyScale_by_state "Attacking" (some ⟨"Active"⟩)).2.1 (by decide),
   (bodyScale_by_state "Attacking" (some ⟨"Startup"⟩)).2.2.1 (by decide),
   (bodyScale_by_state "Idle" none).2.2.2.2.2
     (by decide) (by decide) (by decide) (by decide)⟩

/-- Modelled from the spec: the FighterState tag string the Simulation Engine
(external to the rendered source, visible only through its snapshots) reports
for the getting-up state. Spec section 3 enumerates the variants as Idle,
Moving, Attacking, Blocking, Dashing, HitStun, Airborne, Knockdown,
GettingUp — multi-word variant names carry no space, exactly as in every tag
the source itself compares against snapshots (HitStun, Knockdown) — so the
reported tag is "GettingUp". -/
def gettingUpTag : String := "GettingUp"

/-- C8 exhibits the divergence: the engine's getting-up tag misses the
`STATE_COLORS` entry because that entry is keyed "Getting Up" with a space,
so a fighter getting up is drawn in its base identity colour instead of the
muted highlight 0x886644 the table reserves for it — unlike Attacking or
HitStun, whose tags hit their entries and receive their tints. -/
theorem gettingUp_tint_bug (defaultColor : ℕ) :
    STATE_COLORS gettingUpTag = none
  ∧ bodyColor gettingUpTag defaultColor = defaultColor
  ∧ STATE_COLORS "Getting Up" = some (some 0x886644)
  ∧ bodyColor "Attacking" defaultColor = 0xffaa00
  ∧ bodyColor "HitStun" defaultColor = 0xff0000 :=
  ⟨by decide, rfl, by decide, rfl, rfl⟩

/-- C9: a fighter-state tag outside the enumeration the presentation layer
recognizes resolves to the default treatment — no tint override, i.e. the
base identity colour, and unit scale — and a phase tag outside the
recognized phases leaves the overlay hidden; every involved function is
total, so no such snapshot can throw. -/
theorem unknown_tags_fall_back (state : String) (attack : Option AttackView)
    (defaultColor : ℕ) (snap : Snapshot) (prevText : String)
    (hs : state ∉ recognizedStates) (hp : snap.phase ∉ recognizedPhases) :
    bodyColor state defaultColor = defaultColor
  ∧ bodyScale state attack = (1, 1, 1)
  ∧ (phaseOverlay snap prevText).display = false := by
  simp only [recognizedStates, STATE_COLORS_TABLE, List.map_cons, List.map_nil,
    List.mem_cons, List.not_mem_nil, or_false] at hs
  push_neg at hs
  obtain ⟨hI, hM, hA, hB, hD, hH, hAir, hK, hG⟩ := hs
  simp only [recognizedPhases, List.mem_cons, List.not_mem_nil, or_false] at hp
  push_neg at hp
  obtain ⟨hpC, hpF, hpR, hpM⟩ := hp
  refine ⟨?_, ?_, ?_⟩
  · have hfind : STATE_COLORS_TABLE.find? (fun p => p.1 == state) = none := by
      rw [List.find?_eq_none]
      intro p hp'
      fin_cases hp' <;> simp [beq_iff_eq] <;>
        (intro h; first
          | exact hI h.symm | exact hM h.symm | exact hA h.symm
          | exact hB h.symm | exact hD h.symm | exact hH h.symm
          | exact hAir h.symm | exact hK h.symm | exact hG h.symm)
    rw [bodyColor, STATE_COLORS, hfind]
    rfl
  · rw [bodyScale, if_neg hD, if_neg (fun hc => hA hc.1), if_neg hH, if_neg hK]
  · rw [phaseOverlay, if_neg hpC, if_neg hpR, if_neg hpM]

/-- Concrete check of `unknown_tags_fall_back` on the made-up fighter state
"Berserk" and phase "Paused". -/
theorem unknown_tags_fall_back_witness :
    bodyColor "Berserk" 0x4488ff = 0x4488ff
    ∧ bodyScale "Berserk" none = (1, 1, 1)
    ∧ (phaseOverlay
        ⟨"Paused", 1, 60, "", none, none,
          fun _ => ⟨"Kael", "Sword", 1, 1, 0, 0, 0, 0, "Right", "Idle", none⟩⟩
        "old").display = false :=
  unknown_tags_fall_back "Berserk" none 0x4488ff
    ⟨"Paused", 1, 60, "", none, none,
      fun _ => ⟨"Kael", "Sword", 1, 1, 0, 0, 0, 0, "Right", "Idle", none⟩⟩
    "old" (by decide) (by decide)

end WarVillage
